import Mathlib

/-!
Verification of the PMW3901/PAA5100 optical-flow sensor driver.

This file gives a shallow embedding of the register-level logic of the
driver (file `pmw3901/__init__.py`): the SPI wire framing of register
reads and writes, the bulk-write sequence player, the vendor calibration
arithmetic inside the two `_secret_sauce` variants, the two motion-read
polling loops with their validity filters, and the raw frame-capture
bit-stream decoder.  Pure functions of the source are translated to Lean
functions; the polling loops are modelled as recursion over a finite
trace of observations (each observation pairs the elapsed time seen by
the loop with the bytes the bus would deliver).  All byte values read
from the bus are natural numbers below 256, so Nat arithmetic coincides
with Python integer arithmetic everywhere it is used; register/value
entries of the bulk-write tables are modelled as integers because the
table uses the sentinel WAIT = -1.
-/

/-- Sentinel first element of a bulk-write pair marking a timed delay
(module constant `WAIT = -1` in the source). -/
def WAIT : Int := -1

/-- Register addresses (module constants of the source). -/
def REG_ID : Nat := 0x00

def REG_DATA_READY : Nat := 0x02

def REG_MOTION_BURST : Nat := 0x16

def REG_POWER_UP_RESET : Nat := 0x3A

def REG_ORIENTATION : Nat := 0x5B

def REG_RAWDATA_GRAB : Nat := 0x58

def REG_RAWDATA_GRAB_STATUS : Nat := 0x59

/-- One observable action of the driver against its collaborators: a
single register write transaction, or a blocking sleep in milliseconds. -/
inductive SpiAction where
  | write (register value : Int) : SpiAction
  | sleepMs (ms : Int) : SpiAction
deriving DecidableEq, Repr

/-- True exactly on write actions. -/
def SpiAction.isWrite : SpiAction → Bool
  | .write _ _ => true
  | .sleepMs _ => false

/-- Number of register writes in a list of actions. -/
def write_count (events : List SpiAction) : Nat :=
  events.countP SpiAction.isWrite

/-- The sequence player `_bulk_write(data)`: consumes the flat list two
elements at a time; a pair whose first element is WAIT sleeps for the
second element (milliseconds), any other pair is issued as one register
write.  A trailing odd element makes the Python tuple unpacking raise,
modelled as `none`. -/
def bulk_write : List Int → Option (List SpiAction)
  | [] => some []
  | _ :: [] => none
  | register :: value :: rest =>
    (bulk_write rest).map fun events =>
      (if register = WAIT then SpiAction.sleepMs value else SpiAction.write register value)
        :: events

/-- Total wrapper used to build the action trace of a fixed even-length
table (all tables in the source have even length). -/
def bulk_events (data : List Int) : List SpiAction :=
  (bulk_write data).getD []

/-- Calibration adjustment of the byte read from register 0x70 inside
`_secret_sauce` (both variants):
`if c1 <= 28: c1 += 14`, then `if c1 > 28: c1 += 11` on the possibly
updated value, then `c1 = max(0, min(0x3F, c1))`.  The read byte is a
natural number, so the `max 0` clamp of the source is kept verbatim but
never bites. -/
def calib_c1 (c1 : Nat) : Nat :=
  let a := if c1 ≤ 28 then c1 + 14 else c1
  let b := if a > 28 then a + 11 else a
  max 0 (min 0x3F b)

/-- Calibration adjustment of the byte read from register 0x71 inside
`_secret_sauce` (both variants): `c2 = (c2 * 45) // 100`.  Python floor
division on nonnegative integers is Nat division. -/
def calib_c2 (c2 : Nat) : Nat :=
  (c2 * 45) / 100

/-- First fixed table of `_secret_sauce` (identical in both variants):
bank-select and mode-config writes before conditional branch A. -/
def sauce_prologue : List Int :=
  [
    0x7F, 0x00,
    0x55, 0x01,
    0x50, 0x07,

    0x7F, 0x0E,
    0x43, 0x10
  ]

/-- Fixed mid-sequence table of `_secret_sauce` between the two
conditional branches (identical in both variants). -/
def sauce_mid : List Int :=
  [
    0x7F, 0x00,
    0x51, 0x7B,

    0x50, 0x00,
    0x55, 0x00,
    0x7F, 0x0E
  ]

/-- Intermediate fixed table written inside the calibration branch,
just before the adjusted c1 and c2 are written back (identical in both
variants). -/
def sauce_calib_mid : List Int :=
  [
      0x7F, 0x00,
      0x61, 0xAD,
      0x51, 0x70,
      0x7F, 0x0E
    ]

/-- Long constant tail table of `PMW3901._secret_sauce`, with its two
embedded waits (10 ms and 240 ms) and the LED pulsing trailer. -/
def pmw3901_sauce_tail : List Int :=
  [
    0x7F, 0x00,
    0x61, 0xAD,
    0x7F, 0x03,
    0x40, 0x00,
    0x7F, 0x05,

    0x41, 0xB3,
    0x43, 0xF1,
    0x45, 0x14,
    0x5B, 0x32,
    0x5F, 0x34,
    0x7B, 0x08,
    0x7F, 0x06,
    0x44, 0x1B,
    0x40, 0xBF,
    0x4E, 0x3F,
    0x7F, 0x08,
    0x65, 0x20,
    0x6A, 0x18,

    0x7F, 0x09,
    0x4F, 0xAF,
    0x5F, 0x40,
    0x48, 0x80,
    0x49, 0x80,

    0x57, 0x77,
    0x60, 0x78,
    0x61, 0x78,
    0x62, 0x08,
    0x63, 0x50,
    0x7F, 0x0A,
    0x45, 0x60,
    0x7F, 0x00,
    0x4D, 0x11,

    0x55, 0x80,
    0x74, 0x21,
    0x75, 0x1F,
    0x4A, 0x78,
    0x4B, 0x78,

    0x44, 0x08,
    0x45, 0x50,
    0x64, 0xFF,
    0x65, 0x1F,
    0x7F, 0x14,
    0x65, 0x67,
    0x66, 0x08,
    0x63, 0x70,
    0x7F, 0x15,
    0x48, 0x48,
    0x7F, 0x07,
    0x41, 0x0D,
    0x43, 0x14,

    0x4B, 0x0E,
    0x45, 0x0F,
    0x44, 0x42,
    0x4C, 0x80,
    0x7F, 0x10,

    0x5B, 0x02,
    0x7F, 0x07,
    0x40, 0x41,
    0x70, 0x00,
    WAIT, 0x0A,

    0x32, 0x44,
    0x7F, 0x07,
    0x40, 0x40,
    0x7F, 0x06,
    0x62, 0xF0,
    0x63, 0x00,
    0x7F, 0x0D,
    0x48, 0xC0,
    0x6F, 0xD5,
    0x7F, 0x00,

    0x5B, 0xA0,
    0x4E, 0xA8,
    0x5A, 0x50,
    0x40, 0x80,
    WAIT, 0xF0,

    0x7F, 0x14,
    0x6F, 0x1C,
    0x7F, 0x00
  ]

/-- Long constant tail table of `PAA5100._secret_sauce`. -/
def paa5100_sauce_tail : List Int :=
  [
    0x7F, 0x00,
    0x61, 0xAD,

    0x7F, 0x03,
    0x40, 0x00,

    0x7F, 0x05,
    0x41, 0xB3,
    0x43, 0xF1,
    0x45, 0x14,

    0x5F, 0x34,
    0x7B, 0x08,
    0x5E, 0x34,
    0x5B, 0x11,
    0x6D, 0x11,
    0x45, 0x17,
    0x70, 0xE5,
    0x71, 0xE5,

    0x7F, 0x06,
    0x44, 0x1B,
    0x40, 0xBF,
    0x4E, 0x3F,

    0x7F, 0x08,
    0x66, 0x44,
    0x65, 0x20,
    0x6A, 0x3A,
    0x61, 0x05,
    0x62, 0x05,

    0x7F, 0x09,
    0x4F, 0xAF,
    0x5F, 0x40,
    0x48, 0x80,
    0x49, 0x80,
    0x57, 0x77,
    0x60, 0x78,
    0x61, 0x78,
    0x62, 0x08,
    0x63, 0x50,

    0x7F, 0x0A,
    0x45, 0x60,

    0x7F, 0x00,
    0x4D, 0x11,
    0x55, 0x80,
    0x74, 0x21,
    0x75, 0x1F,
    0x4A, 0x78,
    0x4B, 0x78,
    0x44, 0x08,

    0x45, 0x50,
    0x64, 0xFF,
    0x65, 0x1F,

    0x7F, 0x14,
    0x65, 0x67,
    0x66, 0x08,
    0x63, 0x70,
    0x6F, 0x1C,

    0x7F, 0x15,
    0x48, 0x48,

    0x7F, 0x07,
    0x41, 0x0D,
    0x43, 0x14,
    0x4B, 0x0E,
    0x45, 0x0F,
    0x44, 0x42,
    0x4C, 0x80,

    0x7F, 0x10,
    0x5B, 0x02,

    0x7F, 0x07,
    0x40, 0x41,

    WAIT, 0x0A,

    0x7F, 0x00,
    0x32, 0x00,

    0x7F, 0x07,
    0x40, 0x40,

    0x7F, 0x06,
    0x68, 0xF0,
    0x69, 0x00,

    0x7F, 0x0D,
    0x48, 0xC0,
    0x6F, 0xD5,

    0x7F, 0x00,
    0x5B, 0xA0,
    0x4E, 0xA8,
    0x5A, 0x90,
    0x40, 0x80,
    0x73, 0x1F,

    WAIT, 0x0A,

    0x73, 0x00
  ]

/-- Action trace of `PMW3901._secret_sauce`, parameterised by the four
bytes the chip returns for the reads the sequence performs: `r67` for
register 0x67, `r73` for register 0x73, and `c1`, `c2` for registers
0x70 and 0x71 (the latter two are only read when `r73 = 0`). -/
def secret_sauce (r67 r73 c1 c2 : Nat) : List SpiAction :=
  bulk_events sauce_prologue
  ++ [if r67 &&& 0b10000000 ≠ 0 then SpiAction.write 0x48 0x04 else SpiAction.write 0x48 0x02]
  ++ bulk_events sauce_mid
  ++ (if r73 = 0 then
    bulk_events sauce_calib_mid
    ++ [SpiAction.write 0x70 (calib_c1 c1), SpiAction.write 0x71 (calib_c2 c2)]
  else [])
  ++ bulk_events pmw3901_sauce_tail

/-- Action trace of `PAA5100._secret_sauce`, parameterised like
`secret_sauce`.  The prologue, both conditional branches and the
calibration arithmetic are identical to the PMW3901 variant (the tables
are byte-for-byte the same in the source); the long constant tail
differs. -/
def paa5100_secret_sauce (r67 r73 c1 c2 : Nat) : List SpiAction :=
  bulk_events sauce_prologue
  ++ [if r67 &&& 0b10000000 ≠ 0 then SpiAction.write 0x48 0x04 else SpiAction.write 0x48 0x02]
  ++ bulk_events sauce_mid
  ++ (if r73 = 0 then
    bulk_events sauce_calib_mid
    ++ [SpiAction.write 0x70 (calib_c1 c1), SpiAction.write 0x71 (calib_c2 c2)]
  else [])
  ++ bulk_events paa5100_sauce_tail

/-- Bytes transmitted by `_write(register, value)`: the single SPI
transaction `xfer2([register | 0x80, value])`. -/
def write_txn (register value : Nat) : List Nat :=
  [register ||| 0x80, value]

/-- Bytes transmitted by one single-byte read at address `register`:
the transaction `xfer2([register, 0])`. -/
def read_txn (register : Nat) : List Nat :=
  [register, 0x00]

/-- Simulated register file of the chip for transport round-trip
properties: a total map from address to stored byte. -/
def SimStore : Type := Nat → Nat

/-- Simulated full-duplex bus transfer: receives a transmitted 2-byte
transaction and returns the updated register file together with the
received bytes.  A first byte with bit 7 set is a write (the chip strips
the marker bit and stores the second byte); otherwise it is a read and
the chip echoes the addressed byte as the second received byte.  Other
transaction shapes leave the store unchanged and echo zeros. -/
def sim_xfer (store : SimStore) (tx : List Nat) : SimStore × List Nat :=
  match tx with
  | [a, v] =>
    if a &&& 0x80 ≠ 0 then
      (fun r => if r = a &&& 0x7F then v else store r, [0, 0])
    else
      (store, [0, store a])
  | other => (store, other.map fun _ => 0)

/-- Effect of `_write(register, value)` on the simulated chip. -/
def sim_write (store : SimStore) (register value : Nat) : SimStore :=
  (sim_xfer store (write_txn register value)).1

/-- Result of one single-byte read transaction against the simulated
chip: `_read` keeps `value[1]`, the second received byte. -/
def sim_read_byte (store : SimStore) (register : Nat) : Nat :=
  ((sim_xfer store (read_txn register)).2.getD 1 0)

/-- Result type of `_read(register, length)`: the Python function
returns the bare byte when `length == 1` and the list of bytes
otherwise. -/
inductive ReadResult where
  | single (value : Nat) : ReadResult
  | multi (values : List Nat) : ReadResult
deriving DecidableEq, Repr

/-- The multi-register read `_read(register, length)` against the
simulated chip: issues `length` independent single-byte transactions at
`register`, `register + 1`, ..., collects the second received byte of
each, and returns `result[0]` when `length == 1`, the whole list
otherwise. -/
def _read (store : SimStore) (register : Nat) (length : Nat) : ReadResult :=
  let result := (List.range length).map fun x => sim_read_byte store (register + x)
  if length = 1 then ReadResult.single (result.getD 0 0) else ReadResult.multi result

/-- The transactions transmitted by `_read(register, length)`: one
2-byte transaction per offset. -/
def read_txns (register : Nat) (length : Nat) : List (List Nat) :=
  (List.range length).map fun x => read_txn (register + x)

/-- `get_id()` reads 2 bytes starting at the identity register 0x00. -/
def get_id (store : SimStore) : ReadResult :=
  _read store REG_ID 2

/-- The identity acceptance test performed at the end of `__init__`:
raise unless `product_id == 0x49` and `revision in (0x00, 0x01)`. -/
def id_check (product_id revision : Nat) : Except String (Nat × Nat) :=
  if product_id ≠ 0x49 ∨ (revision ≠ 0x00 ∧ revision ≠ 0x01) then
    Except.error "Invalid Product ID or Revision for PMW3901"
  else
    Except.ok (product_id, revision)

/-- Little-endian signed 16-bit decode of two wire bytes, as performed
by `struct.unpack` format `h` on bytes `lo`, `hi`. -/
def int16_le (lo hi : Nat) : Int :=
  if lo + 256 * hi < 32768 then (lo + 256 * hi : Int)
  else (lo + 256 * hi : Int) - 65536

/-- The 13 raw bytes returned by the motion-burst transaction
`xfer2([REG_MOTION_BURST] + [0]*12)`. -/
structure BurstRaw where
  b0 : Nat
  b1 : Nat
  b2 : Nat
  b3 : Nat
  b4 : Nat
  b5 : Nat
  b6 : Nat
  b7 : Nat
  b8 : Nat
  b9 : Nat
  b10 : Nat
  b11 : Nat
  b12 : Nat
deriving DecidableEq, Repr

/-- The unpacked burst sample, fields in the order of the format string
`<BBBhhBBBBBB` (first byte discarded). -/
structure BurstSample where
  dr : Nat
  obs : Nat
  x : Int
  y : Int
  quality : Nat
  raw_sum : Nat
  raw_max : Nat
  raw_min : Nat
  shutter_upper : Nat
  shutter_lower : Nat
deriving DecidableEq, Repr

/-- `struct.unpack("<BBBhhBBBBBB", data)` applied to the 13 burst
bytes: byte 0 ignored, bytes 3..6 are two little-endian signed shorts. -/
def unpack_burst (d : BurstRaw) : BurstSample where
  dr := d.b1
  obs := d.b2
  x := int16_le d.b3 d.b4
  y := int16_le d.b5 d.b6
  quality := d.b7
  raw_sum := d.b8
  raw_max := d.b9
  raw_min := d.b10
  shutter_upper := d.b11
  shutter_lower := d.b12

/-- The burst validity test of `get_motion`:
`dr & 0b10000000 and not (quality < 0x19 and shutter_upper == 0x1F)`
(Python truthiness of `dr & 0b10000000` is being nonzero). -/
def burst_valid (s : BurstSample) : Bool :=
  (s.dr &&& 0b10000000 != 0)
    && !(decide (s.quality < 0x19) && decide (s.shutter_upper = 0x1F))

/-- The 5 bytes read by `get_motion_slow` starting at REG_DATA_READY. -/
structure SlowRaw where
  b0 : Nat
  b1 : Nat
  b2 : Nat
  b3 : Nat
  b4 : Nat
deriving DecidableEq, Repr

/-- The slow-path validity test: `dr & 0b10000000` on the first byte. -/
def slow_valid (d : SlowRaw) : Bool :=
  d.b0 &&& 0b10000000 != 0

/-- `struct.unpack("<Bhh", data)` deltas of the slow path: two
little-endian signed shorts after the data-ready byte. -/
def slow_deltas (d : SlowRaw) : Int × Int :=
  (int16_le d.b1 d.b2, int16_le d.b3 d.b4)

/-- Outcome of a motion-read polling loop: the returned deltas, or the
timeout RuntimeError. -/
inductive MotionResult where
  | ok (deltaX deltaY : Int) : MotionResult
  | timedOut : MotionResult
deriving DecidableEq, Repr

/-- The shared shape of the two motion polling loops, over a finite
trace of observations.  Each trace entry pairs the elapsed time at the
loop condition check with the sample the bus would deliver on that
iteration.  The loop condition `time.time() - t_start < timeout` is
checked first; inside, the sample is parsed and returned if valid;
leaving the loop raises the timeout error.  A trace too short to decide
the outcome yields `none`. -/
def motion_loop {α : Type} (valid : α → Bool) (deltas : α → Int × Int)
    (timeout : Nat) : List (Nat × α) → Option MotionResult
  | [] => none
  | (t, d) :: rest =>
    if t < timeout then
      if valid d then some (MotionResult.ok (deltas d).1 (deltas d).2)
      else motion_loop valid deltas timeout rest
    else some MotionResult.timedOut

/-- `get_motion(timeout)` over a trace of burst responses. -/
def get_motion (timeout : Nat) (trace : List (Nat × BurstRaw)) : Option MotionResult :=
  motion_loop (fun d => burst_valid (unpack_burst d))
    (fun d => ((unpack_burst d).x, (unpack_burst d).y)) timeout trace

/-- `get_motion_slow(timeout)` over a trace of 5-byte reads. -/
def get_motion_slow (timeout : Nat) (trace : List (Nat × SlowRaw)) : Option MotionResult :=
  motion_loop slow_valid slow_deltas timeout trace

/-- Frame size constant `RAW_DATA_LEN` of `frame_capture`. -/
def RAW_DATA_LEN : Nat := 1225

/-- One iteration body of the frame-capture streaming loop on the byte
`data` read from REG_RAWDATA_GRAB: a byte whose top two bits are `01`
merges the upper 6 pixel bits at the current index, a byte whose top
two bits are `10` merges the lower 2 pixel bits (taken from bits 3:2 of
the byte) and advances the index, anything else is ignored.  The Python
masks `~0b11111100` and `~0b00000011` act on pixel values that always
stay below 256, so they are the byte complements `0xFF ^^^ mask`. -/
def capture_step (data : Nat) (raw : List Nat) (x : Nat) : List Nat × Nat :=
  let raw1 :=
    if data &&& 0b11000000 = 0b01000000 then
      raw.set x ((raw.getD x 0 &&& (0xFF ^^^ 0b11111100)) ||| ((data &&& 0b00111111) <<< 2))
    else raw
  if data &&& 0b11000000 = 0b10000000 then
    (raw1.set x ((raw1.getD x 0 &&& (0xFF ^^^ 0b00000011)) ||| ((data &&& 0b00001100) >>> 2)),
      x + 1)
  else (raw1, x)

/-- Outcome of the frame-capture streaming loop: the completed frame, or
the timeout RuntimeError reporting how many pixels were assembled. -/
inductive CaptureResult where
  | done (pixels : List Nat) : CaptureResult
  | timedOut (count : Nat) : CaptureResult
deriving DecidableEq, Repr

/-- The frame-capture streaming loop over a finite trace of reads.  Each
trace entry pairs the byte delivered by REG_RAWDATA_GRAB with the
elapsed time at the timeout check of that iteration.  The loop processes
the byte, returns the frame once the index reaches RAW_DATA_LEN, and
otherwise raises the timeout error when `timeout < t`.  A trace too
short to decide the outcome yields `none`. -/
def capture_loop (timeout : Nat) :
    List (Nat × Nat) → List Nat → Nat → Option CaptureResult
  | [], _, _ => none
  | (data, t) :: rest, raw, x =>
    if (capture_step data raw x).2 = RAW_DATA_LEN then
      some (CaptureResult.done (capture_step data raw x).1)
    else if timeout < t then
      some (CaptureResult.timedOut (capture_step data raw x).2)
    else
      capture_loop timeout rest (capture_step data raw x).1 (capture_step data raw x).2

/-- The streaming phase of `frame_capture(timeout)`: starts from 1225
zero pixels and index 0. -/
def frame_capture (timeout : Nat) (reads : List (Nat × Nat)) : Option CaptureResult :=
  capture_loop timeout reads (List.replicate RAW_DATA_LEN 0) 0

/-- States reached by running the streaming loop body over a prefix of
reads on which the loop neither completed the frame nor timed out:
returns the resulting (pixels, index) state, or `none` if some step of
the prefix completed the frame or exceeded the timeout. -/
def capture_clean_run (timeout : Nat) :
    List (Nat × Nat) → List Nat → Nat → Option (List Nat × Nat)
  | [], raw, x => some (raw, x)
  | (data, t) :: rest, raw, x =>
    if (capture_step data raw x).2 ≠ RAW_DATA_LEN ∧ t ≤ timeout then
      capture_clean_run timeout rest (capture_step data raw x).1 (capture_step data raw x).2
    else none

/-- Bitwise helper: testing the write-marker bit. -/
theorem and_128_ne_iff (n : Nat) : n &&& 128 ≠ 0 ↔ Nat.testBit n 7 := by
  have h : (128 : Nat) = 2 ^ 7 := by norm_num
  rw [h, Nat.and_two_pow]
  cases hb : n.testBit 7 <;> simp

/-- Addresses below 0x80 have the marker bit clear. -/
theorem and_128_eq_zero (a : Nat) (h : a < 128) : a &&& 128 = 0 := by
  have h7 : (128 : Nat) = 2 ^ 7 := by norm_num
  rw [h7, Nat.and_two_pow, Nat.testBit_lt_two_pow (show a < 2 ^ 7 by omega)]
  simp

/-- Stripping the marker bit recovers an address below 0x80. -/
theorem lor_128_and_127 (a : Nat) (h : a < 128) : (a ||| 128) &&& 127 = a := by
  rw [Nat.and_distrib_right]
  have h1 : a &&& 127 = a := @Nat.and_pow_two_sub_one_of_lt_two_pow 7 a h
  norm_num at h1
  rw [h1, show (128 : Nat) &&& 127 = 0 from by decide, Nat.or_zero]

/-- The marker bit is set after marking. -/
theorem lor_128_and_128_ne (a : Nat) : (a ||| 128) &&& 128 ≠ 0 := by
  rw [and_128_ne_iff, Nat.testBit_lor]
  simp
  exact Or.inr (by decide)

/-- The motion polling loop returns deltas exactly for the first valid
sample seen strictly before the deadline. -/
theorem motion_loop_ok_iff {α : Type} (valid : α → Bool) (deltas : α → Int × Int)
    (timeout : Nat) (trace : List (Nat × α)) (dx dy : Int) :
    motion_loop valid deltas timeout trace = some (MotionResult.ok dx dy) ↔
      ∃ pre t d post,
        trace = pre ++ (t, d) :: post ∧
        (∀ q ∈ pre, q.1 < timeout ∧ valid q.2 = false) ∧
        t < timeout ∧ valid d = true ∧ deltas d = (dx, dy) := by
  induction trace with
  | nil => simp [motion_loop]
  | cons hd rest ih =>
    obtain ⟨t0, d0⟩ := hd
    by_cases ht : t0 < timeout
    · by_cases hv : valid d0
      · rw [motion_loop, if_pos ht, if_pos hv]
        constructor
        · intro h
          have h1 : (deltas d0).1 = dx ∧ (deltas d0).2 = dy := by simpa using h
          exact ⟨[], t0, d0, rest, rfl, by simp, ht, hv, Prod.ext h1.1 h1.2⟩
        · rintro ⟨pre, t, d, post, heq, hpre, htd, hvd, hdel⟩
          cases pre with
          | nil =>
            simp only [List.nil_append, List.cons.injEq] at heq
            obtain ⟨heq1, -⟩ := heq
            injection heq1 with ha hb
            subst ha; subst hb
            rw [hdel]
          | cons p pre =>
            have := hpre p (List.mem_cons_self p pre)
            simp only [List.cons_append, List.cons.injEq] at heq
            rw [← heq.1] at this
            simp only at this
            rw [this.2] at hv
            exact absurd hv (by simp)
      · rw [motion_loop, if_pos ht, if_neg hv]
        rw [ih]
        constructor
        · rintro ⟨pre, t, d, post, heq, hpre, htd, hvd, hdel⟩
          refine ⟨(t0, d0) :: pre, t, d, post, by rw [List.cons_append, heq], ?_, htd, hvd, hdel⟩
          intro q hq
          rcases List.mem_cons.mp hq with h | h
          · rw [h]; exact ⟨ht, by simpa using hv⟩
          · exact hpre q h
        · rintro ⟨pre, t, d, post, heq, hpre, htd, hvd, hdel⟩
          cases pre with
          | nil =>
            simp only [List.nil_append, List.cons.injEq] at heq
            obtain ⟨heq1, -⟩ := heq
            injection heq1 with ha hb
            rw [← hb] at hvd
            exact absurd hvd (by simpa using hv)
          | cons p pre =>
            simp only [List.cons_append, List.cons.injEq] at heq
            exact ⟨pre, t, d, post, heq.2,
              fun q hq => hpre q (List.mem_cons_of_mem p hq), htd, hvd, hdel⟩
    · rw [motion_loop, if_neg ht]
      constructor
      · intro h
        exact absurd h (by simp)
      · rintro ⟨pre, t, d, post, heq, hpre, htd, hvd, hdel⟩
        cases pre with
        | nil =>
          simp only [List.nil_append, List.cons.injEq] at heq
          obtain ⟨heq1, -⟩ := heq
          injection heq1 with ha hb
          rw [ha] at ht
          exact absurd htd ht
        | cons p pre =>
          have := hpre p (List.mem_cons_self p pre)
          simp only [List.cons_append, List.cons.injEq] at heq
          rw [← heq.1] at this
          simp only at this
          exact absurd this.1 ht

/-- The motion polling loop raises the timeout error exactly when the
deadline is reached before any valid sample. -/
theorem motion_loop_timeout_iff {α : Type} (valid : α → Bool) (deltas : α → Int × Int)
    (timeout : Nat) (trace : List (Nat × α)) :
    motion_loop valid deltas timeout trace = some MotionResult.timedOut ↔
      ∃ pre t d post,
        trace = pre ++ (t, d) :: post ∧
        (∀ q ∈ pre, q.1 < timeout ∧ valid q.2 = false) ∧
        timeout ≤ t := by
  induction trace with
  | nil => simp [motion_loop]
  | cons hd rest ih =>
    obtain ⟨t0, d0⟩ := hd
    by_cases ht : t0 < timeout
    · by_cases hv : valid d0
      · rw [motion_loop, if_pos ht, if_pos hv]
        constructor
        · intro h
          exact absurd h (by simp)
        · rintro ⟨pre, t, d, post, heq, hpre, htd⟩
          cases pre with
          | nil =>
            simp only [List.nil_append, List.cons.injEq] at heq
            obtain ⟨heq1, -⟩ := heq
            injection heq1 with ha hb
            rw [ha] at ht
            omega
          | cons p pre =>
            have := hpre p (List.mem_cons_self p pre)
            simp only [List.cons_append, List.cons.injEq] at heq
            rw [← heq.1] at this
            simp only at this
            rw [this.2] at hv
            exact absurd hv (by simp)
      · rw [motion_loop, if_pos ht, if_neg hv]
        rw [ih]
        constructor
        · rintro ⟨pre, t, d, post, heq, hpre, htd⟩
          refine ⟨(t0, d0) :: pre, t, d, post, by rw [List.cons_append, heq], ?_, htd⟩
          intro q hq
          rcases List.mem_cons.mp hq with h | h
          · rw [h]; exact ⟨ht, by simpa using hv⟩
          · exact hpre q h
        · rintro ⟨pre, t, d, post, heq, hpre, htd⟩
          cases pre with
          | nil =>
            simp only [List.nil_append, List.cons.injEq] at heq
            obtain ⟨heq1, -⟩ := heq
            injection heq1 with ha hb
            rw [ha] at ht
            omega
          | cons p pre =>
            simp only [List.cons_append, List.cons.injEq] at heq
            exact ⟨pre, t, d, post, heq.2,
              fun q hq => hpre q (List.mem_cons_of_mem p hq), htd⟩
    · rw [motion_loop, if_neg ht]
      constructor
      · intro _
        exact ⟨[], t0, d0, rest, rfl, by simp, by omega⟩
      · intro _
        rfl

/-- The streaming index advances exactly on a lower-fragment byte. -/
theorem capture_step_snd (data : Nat) (raw : List Nat) (x : Nat) :
    (capture_step data raw x).2 =
      if data &&& 0b11000000 = 0b10000000 then x + 1 else x := by
  by_cases h : data &&& 0b11000000 = 0b10000000
  · simp [capture_step, h]
  · by_cases h2 : data &&& 0b11000000 = 0b01000000 <;> simp [capture_step, h, h2]

/-- One streaming step never changes the number of pixel slots. -/
theorem capture_step_length (data : Nat) (raw : List Nat) (x : Nat) :
    (capture_step data raw x).1.length = raw.length := by
  by_cases h : data &&& 0b11000000 = 0b10000000 <;>
    by_cases h2 : data &&& 0b11000000 = 0b01000000 <;>
      simp [capture_step, h, h2]

/-- A clean prefix run never changes the number of pixel slots. -/
theorem capture_clean_run_length (timeout : Nat) (reads : List (Nat × Nat)) :
    ∀ raw x s, capture_clean_run timeout reads raw x = some s →
      s.1.length = raw.length := by
  induction reads with
  | nil =>
    intro raw x s h
    simp [capture_clean_run] at h
    rw [← h]
  | cons hd rest ih =>
    obtain ⟨d0, t0⟩ := hd
    intro raw x s h
    rw [capture_clean_run] at h
    by_cases hc : (capture_step d0 raw x).2 ≠ RAW_DATA_LEN ∧ t0 ≤ timeout
    · rw [if_pos hc] at h
      have := ih _ _ _ h
      rw [this, capture_step_length]
    · rw [if_neg hc] at h
      exact absurd h (by simp)

/-- A clean prefix run starting strictly below the frame size stays
strictly below it. -/
theorem capture_clean_run_index_lt (timeout : Nat) (reads : List (Nat × Nat)) :
    ∀ raw x s, capture_clean_run timeout reads raw x = some s →
      x < RAW_DATA_LEN → s.2 < RAW_DATA_LEN := by
  induction reads with
  | nil =>
    intro raw x s h hx
    simp [capture_clean_run] at h
    rw [← h]
    exact hx
  | cons hd rest ih =>
    obtain ⟨d0, t0⟩ := hd
    intro raw x s h hx
    rw [capture_clean_run] at h
    by_cases hc : (capture_step d0 raw x).2 ≠ RAW_DATA_LEN ∧ t0 ≤ timeout
    · rw [if_pos hc] at h
      refine ih _ _ _ h ?_
      have hs := capture_step_snd d0 raw x
      have hne := hc.1
      by_cases hl : d0 &&& 0b11000000 = 0b10000000
      · rw [if_pos hl] at hs
        omega
      · rw [if_neg hl] at hs
        omega
    · rw [if_neg hc] at h
      exact absurd h (by simp)

/-- The streaming loop returns the frame exactly when some step brings
the index to RAW_DATA_LEN after a clean prefix, and the returned frame
is the pixel buffer of that step. -/
theorem capture_loop_done_iff (timeout : Nat) (reads : List (Nat × Nat)) :
    ∀ raw x l, capture_loop timeout reads raw x = some (CaptureResult.done l) ↔
      ∃ pre d t post s,
        reads = pre ++ (d, t) :: post ∧
        capture_clean_run timeout pre raw x = some s ∧
        (capture_step d s.1 s.2).2 = RAW_DATA_LEN ∧
        l = (capture_step d s.1 s.2).1 := by
  induction reads with
  | nil =>
    intro raw x l
    constructor
    · intro h
      exact absurd h (by simp [capture_loop])
    · rintro ⟨pre, d, t, post, s, heq, -, -, -⟩
      exact absurd heq (by simp)
  | cons hd rest ih =>
    obtain ⟨d0, t0⟩ := hd
    intro raw x l
    by_cases hdone : (capture_step d0 raw x).2 = RAW_DATA_LEN
    · rw [capture_loop, if_pos hdone]
      constructor
      · intro h
        have h1 : (capture_step d0 raw x).1 = l := by simpa using h
        exact ⟨[], d0, t0, rest, (raw, x), rfl, by rw [capture_clean_run], hdone, h1.symm⟩
      · rintro ⟨pre, d, t, post, s, heq, hclean, hhit, hl⟩
        cases pre with
        | nil =>
          simp only [List.nil_append, List.cons.injEq] at heq
          obtain ⟨heq1, -⟩ := heq
          injection heq1 with ha hb
          subst ha
          rw [capture_clean_run] at hclean
          have hs : s = (raw, x) := by
            have := hclean
            simpa using this.symm
          rw [hl, hs]
        | cons p pre =>
          simp only [List.cons_append, List.cons.injEq] at heq
          rw [← heq.1] at hclean
          rw [capture_clean_run, if_neg (by simp [hdone])] at hclean
          exact absurd hclean (by simp)
    · by_cases htime : timeout < t0
      · rw [capture_loop, if_neg hdone, if_pos htime]
        constructor
        · intro h
          exact absurd h (by simp)
        · rintro ⟨pre, d, t, post, s, heq, hclean, hhit, hl⟩
          cases pre with
          | nil =>
            simp only [List.nil_append, List.cons.injEq] at heq
            obtain ⟨heq1, -⟩ := heq
            injection heq1 with ha hb
            subst ha
            rw [capture_clean_run] at hclean
            have hs : s = (raw, x) := by simpa using hclean.symm
            rw [hs] at hhit
            exact absurd hhit hdone
          | cons p pre =>
            simp only [List.cons_append, List.cons.injEq] at heq
            rw [← heq.1] at hclean
            rw [capture_clean_run, if_neg (by omega)] at hclean
            exact absurd hclean (by simp)
      · rw [capture_loop, if_neg hdone, if_neg htime]
        rw [ih]
        constructor
        · rintro ⟨pre, d, t, post, s, heq, hclean, hhit, hl⟩
          refine ⟨(d0, t0) :: pre, d, t, post, s, by rw [List.cons_append, heq], ?_, hhit, hl⟩
          rw [capture_clean_run, if_pos ⟨hdone, by omega⟩]
          exact hclean
        · rintro ⟨pre, d, t, post, s, heq, hclean, hhit, hl⟩
          cases pre with
          | nil =>
            simp only [List.nil_append, List.cons.injEq] at heq
            obtain ⟨heq1, -⟩ := heq
            injection heq1 with ha hb
            subst ha
            rw [capture_clean_run] at hclean
            have hs : s = (raw, x) := by simpa using hclean.symm
            rw [hs] at hhit
            exact absurd hhit hdone
          | cons p pre =>
            simp only [List.cons_append, List.cons.injEq] at heq
            rw [← heq.1] at hclean
            rw [capture_clean_run, if_pos ⟨hdone, by omega⟩] at hclean
            exact ⟨pre, d, t, post, s, heq.2, hclean, hhit, hl⟩

/-- The streaming loop raises the timeout error exactly when, after a
clean prefix, a step leaves the frame incomplete while the deadline has
passed; the reported count is the index reached by that step. -/
theorem capture_loop_timeout_iff (timeout : Nat) (reads : List (Nat × Nat)) :
    ∀ raw x n, capture_loop timeout reads raw x = some (CaptureResult.timedOut n) ↔
      ∃ pre d t post s,
        reads = pre ++ (d, t) :: post ∧
        capture_clean_run timeout pre raw x = some s ∧
        (capture_step d s.1 s.2).2 ≠ RAW_DATA_LEN ∧
        timeout < t ∧
        n = (capture_step d s.1 s.2).2 := by
  induction reads with
  | nil =>
    intro raw x n
    constructor
    · intro h
      exact absurd h (by simp [capture_loop])
    · rintro ⟨pre, d, t, post, s, heq, -, -, -, -⟩
      exact absurd heq (by simp)
  | cons hd rest ih =>
    obtain ⟨d0, t0⟩ := hd
    intro raw x n
    by_cases hdone : (capture_step d0 raw x).2 = RAW_DATA_LEN
    · rw [capture_loop, if_pos hdone]
      constructor
      · intro h
        exact absurd h (by simp)
      · rintro ⟨pre, d, t, post, s, heq, hclean, hmiss, htime, hn⟩
        cases pre with
        | nil =>
          simp only [List.nil_append, List.cons.injEq] at heq
          obtain ⟨heq1, -⟩ := heq
          injection heq1 with ha hb
          subst ha
          rw [capture_clean_run] at hclean
          have hs : s = (raw, x) := by simpa using hclean.symm
          rw [hs] at hmiss
          exact absurd hdone hmiss
        | cons p pre =>
          simp only [List.cons_append, List.cons.injEq] at heq
          rw [← heq.1] at hclean
          rw [capture_clean_run, if_neg (by simp [hdone])] at hclean
          exact absurd hclean (by simp)
    · by_cases htime0 : timeout < t0
      · rw [capture_loop, if_neg hdone, if_pos htime0]
        constructor
        · intro h
          have h1 : (capture_step d0 raw x).2 = n := by simpa using h
          exact ⟨[], d0, t0, rest, (raw, x), rfl, by rw [capture_clean_run], hdone, htime0, h1.symm⟩
        · rintro ⟨pre, d, t, post, s, heq, hclean, hmiss, htime, hn⟩
          cases pre with
          | nil =>
            simp only [List.nil_append, List.cons.injEq] at heq
            obtain ⟨heq1, -⟩ := heq
            injection heq1 with ha hb
            subst ha
            rw [capture_clean_run] at hclean
            have hs : s = (raw, x) := by simpa using hclean.symm
            rw [hn, hs]
          | cons p pre =>
            simp only [List.cons_append, List.cons.injEq] at heq
            rw [← heq.1] at hclean
            rw [capture_clean_run, if_neg (by omega)] at hclean
            exact absurd hclean (by simp)
      · rw [capture_loop, if_neg hdone, if_neg htime0]
        rw [ih]
        constructor
        · rintro ⟨pre, d, t, post, s, heq, hclean, hmiss, htime, hn⟩
          refine ⟨(d0, t0) :: pre, d, t, post, s, by rw [List.cons_append, heq], ?_, hmiss, htime, hn⟩
          rw [capture_clean_run, if_pos ⟨hdone, by omega⟩]
          exact hclean
        · rintro ⟨pre, d, t, post, s, heq, hclean, hmiss, htime, hn⟩
          cases pre with
          | nil =>
            simp only [List.nil_append, List.cons.injEq] at heq
            obtain ⟨heq1, -⟩ := heq
            injection heq1 with ha hb
            subst ha; subst hb
            exact absurd htime htime0
          | cons p pre =>
            simp only [List.cons_append, List.cons.injEq] at heq
            rw [← heq.1] at hclean
            rw [capture_clean_run, if_pos ⟨hdone, by omega⟩] at hclean
            exact ⟨pre, d, t, post, s, heq.2, hclean, hmiss, htime, hn⟩

/-- C1: when the status register 0x73 reads 0x00, both secret-sauce
variants adjust the calibration bytes c1 (register 0x70) and c2
(register 0x71) and write exactly the adjusted values back to those
registers: c1 gains 14 when at most 28, then gains 11 when the possibly
updated value exceeds 28, clamped to [0, 0x3F]; c2 becomes
(c2 * 45) integer-divided by 100. -/
theorem secret_sauce_calibration_writeback (r67 c1 c2 : Nat) :
    (∃ pre post, secret_sauce r67 0 c1 c2 =
      pre ++ [SpiAction.write 0x70 (calib_c1 c1), SpiAction.write 0x71 (calib_c2 c2)] ++ post) ∧
    (∃ pre post, paa5100_secret_sauce r67 0 c1 c2 =
      pre ++ [SpiAction.write 0x70 (calib_c1 c1), SpiAction.write 0x71 (calib_c2 c2)] ++ post) ∧
    calib_c1 c1 =
      min 0x3F (if (if c1 ≤ 28 then c1 + 14 else c1) > 28
        then (if c1 ≤ 28 then c1 + 14 else c1) + 11
        else (if c1 ≤ 28 then c1 + 14 else c1)) ∧
    calib_c1 c1 ≤ 0x3F ∧
    calib_c2 c2 = c2 * 45 / 100 := by
  refine ⟨?_, ?_, ?_, ?_, rfl⟩
  · refine ⟨bulk_events sauce_prologue
      ++ [if r67 &&& 0b10000000 ≠ 0 then SpiAction.write 0x48 0x04 else SpiAction.write 0x48 0x02]
      ++ bulk_events sauce_mid ++ bulk_events sauce_calib_mid,
      bulk_events pmw3901_sauce_tail, ?_⟩
    simp [secret_sauce]
  · refine ⟨bulk_events sauce_prologue
      ++ [if r67 &&& 0b10000000 ≠ 0 then SpiAction.write 0x48 0x04 else SpiAction.write 0x48 0x02]
      ++ bulk_events sauce_mid ++ bulk_events sauce_calib_mid,
      bulk_events paa5100_sauce_tail, ?_⟩
    simp [paa5100_secret_sauce]
  · rw [calib_c1]
    simp [Nat.zero_max]
  · rw [calib_c1]
    simp

/-- C2 counterexample: the claimed calibration value for c1 = 28 is 42,
but both increments apply (28 + 14 = 42 > 28, so 11 more is added) and
the code produces 53. -/
theorem calib_c1_at_28_cex : calib_c1 28 ≠ 42 ∧ calib_c1 28 = 53 := by
  constructor <;> decide

/-- C2 amended: the calibration arithmetic yields c1=28 to 53 (both
increments apply), c1=29 to 40, c1=0x50 clamped to 0x3F, c2=100 to 45
and c2=255 to 114. -/
theorem calib_io_pairs :
    calib_c1 28 = 53 ∧ calib_c1 29 = 40 ∧ calib_c1 0x50 = 0x3F ∧
    calib_c2 100 = 45 ∧ calib_c2 255 = 114 := by
  refine ⟨?_, ?_, ?_, ?_, ?_⟩ <;> decide

/-- Bool form of the marker-bit test. -/
theorem and_128_bne (n : Nat) : (n &&& 128 != 0) = Nat.testBit n 7 := by
  rw [Bool.eq_iff_iff, bne_iff_ne]
  exact and_128_ne_iff n

/-- C3: a burst sample is accepted exactly when bit 7 of the status
byte is set and not both quality below 0x19 and shutter upper equal to
0x1F; in particular quality 0x18 with shutter 0x1F is rejected, quality
0x19 with shutter 0x1F is accepted, and a clear data-ready bit rejects
the sample regardless of the other fields.  When accepted on an
in-deadline iteration, `get_motion` returns its decoded deltas. -/
theorem burst_validity_rule :
    (∀ d : BurstRaw,
      burst_valid (unpack_burst d) = true ↔
        (Nat.testBit d.b1 7 ∧
          ¬ ((unpack_burst d).quality < 0x19 ∧ (unpack_burst d).shutter_upper = 0x1F))) ∧
    burst_valid (unpack_burst ⟨0, 0x80, 0, 0, 0, 0, 0, 0x18, 0, 0, 0, 0x1F, 0⟩) = false ∧
    burst_valid (unpack_burst ⟨0, 0x80, 0, 0, 0, 0, 0, 0x19, 0, 0, 0, 0x1F, 0⟩) = true ∧
    (∀ d : BurstRaw, Nat.testBit d.b1 7 = false → burst_valid (unpack_burst d) = false) ∧
    (∀ (timeout t : Nat) (d : BurstRaw) (rest : List (Nat × BurstRaw)),
      t < timeout → burst_valid (unpack_burst d) = true →
        get_motion timeout ((t, d) :: rest) =
          some (MotionResult.ok (unpack_burst d).x (unpack_burst d).y)) := by
  refine ⟨?_, by decide, by decide, ?_, ?_⟩
  · intro d
    rw [burst_valid, show (unpack_burst d).dr = d.b1 from rfl, and_128_bne]
    simp
    intro _
    omega
  · intro d h
    rw [burst_valid, show (unpack_burst d).dr = d.b1 from rfl, and_128_bne, h]
    rfl
  · intro timeout t d rest ht hv
    rw [get_motion, motion_loop, if_pos ht, if_pos hv]

/-- C3 witness: concrete instances discharging the hypotheses of the
conditional conjuncts. -/
theorem burst_validity_rule_witness :
    (Nat.testBit 0x7F 7 = false ∧
      burst_valid (unpack_burst ⟨0, 0x7F, 0, 0, 0, 0, 0, 0xFF, 0, 0, 0, 0, 0⟩) = false) ∧
    ((0 : Nat) < 5 ∧
      get_motion 5 [(0, ⟨0, 0x80, 0, 5, 0, 0, 0, 0x19, 0, 0, 0, 0x1F, 0⟩)] =
        some (MotionResult.ok 5 0)) := by
  constructor
  · exact ⟨by decide, burst_validity_rule.2.2.2.1 ⟨0, 0x7F, 0, 0, 0, 0, 0, 0xFF, 0, 0, 0, 0, 0⟩ (by decide)⟩
  · refine ⟨by decide, ?_⟩
    have h := burst_validity_rule.2.2.2.2 5 0 ⟨0, 0x80, 0, 5, 0, 0, 0, 0x19, 0, 0, 0, 0x1F, 0⟩ []
      (by decide) (by decide)
    exact h.trans (by decide)

/-- C4 counterexample: the upper fragment 0b01111111 followed by the
lower fragment 0b10000011 at pixel 0 leaves the pixel at 0xFC, not
0xFF, because the lower two pixel bits are taken from bits 3:2 of the
lower-fragment byte, which are zero in 0b10000011. -/
theorem frame_fragment_decode_cex :
    (capture_step 0b10000011
        (capture_step 0b01111111 (List.replicate RAW_DATA_LEN 0) 0).1
        (capture_step 0b01111111 (List.replicate RAW_DATA_LEN 0) 0).2).1.getD 0 0 ≠ 0xFF := by
  decide

/-- C4 amended: the upper fragment 0b01111111 does not advance the
index, and the following lower fragment 0b10000011 completes pixel 0 to
(0x3F <<< 2) ||| ((0b10000011 &&& 0b1100) >>> 2) = 0xFC; a lower
fragment carrying its two payload bits in positions 3:2, such as
0b10001100, completes the pixel to 0xFF. -/
theorem frame_fragment_decode :
    (capture_step 0b01111111 (List.replicate RAW_DATA_LEN 0) 0).2 = 0 ∧
    (capture_step 0b10000011
        (capture_step 0b01111111 (List.replicate RAW_DATA_LEN 0) 0).1
        (capture_step 0b01111111 (List.replicate RAW_DATA_LEN 0) 0).2).1.getD 0 0 =
      (0x3F <<< 2) ||| ((0b10000011 &&& 0b1100) >>> 2) ∧
    (capture_step 0b10000011
        (capture_step 0b01111111 (List.replicate RAW_DATA_LEN 0) 0).1
        (capture_step 0b01111111 (List.replicate RAW_DATA_LEN 0) 0).2).2 = 1 ∧
    (capture_step 0b10001100
        (capture_step 0b01111111 (List.replicate RAW_DATA_LEN 0) 0).1
        (capture_step 0b01111111 (List.replicate RAW_DATA_LEN 0) 0).2).1.getD 0 0 = 0xFF := by
  refine ⟨by decide, by decide, by decide, by decide⟩

/-- C5: during frame-capture streaming, the pixel index advances
exactly on a byte whose top two bits are 10; the loop returns a frame
exactly when a step after a clean prefix brings the index to 1225, and
that frame has as many pixels as the buffer; it raises the timeout
error exactly when a step after a clean prefix leaves the frame
incomplete past the deadline, reporting the index reached, which stays
below 1225 for runs started below 1225; `frame_capture` starts the loop
on 1225 zero pixels at index 0. -/
theorem frame_capture_streaming (timeout : Nat) (reads : List (Nat × Nat))
    (raw : List Nat) (x : Nat) :
    (∀ data raw0 x0, (capture_step data raw0 x0).2 =
      if data &&& 0b11000000 = 0b10000000 then x0 + 1 else x0) ∧
    (raw.length = RAW_DATA_LEN →
      ∀ l, capture_loop timeout reads raw x = some (CaptureResult.done l) →
        l.length = RAW_DATA_LEN) ∧
    (∀ l, capture_loop timeout reads raw x = some (CaptureResult.done l) ↔
      ∃ pre d t post s,
        reads = pre ++ (d, t) :: post ∧
        capture_clean_run timeout pre raw x = some s ∧
        (capture_step d s.1 s.2).2 = RAW_DATA_LEN ∧
        l = (capture_step d s.1 s.2).1) ∧
    (∀ n, capture_loop timeout reads raw x = some (CaptureResult.timedOut n) ↔
      ∃ pre d t post s,
        reads = pre ++ (d, t) :: post ∧
        capture_clean_run timeout pre raw x = some s ∧
        (capture_step d s.1 s.2).2 ≠ RAW_DATA_LEN ∧
        timeout < t ∧
        n = (capture_step d s.1 s.2).2) ∧
    (x < RAW_DATA_LEN →
      ∀ n, capture_loop timeout reads raw x = some (CaptureResult.timedOut n) →
        n < RAW_DATA_LEN) ∧
    frame_capture timeout reads = capture_loop timeout reads (List.replicate RAW_DATA_LEN 0) 0 := by
  refine ⟨capture_step_snd, ?_, capture_loop_done_iff timeout reads raw x,
    capture_loop_timeout_iff timeout reads raw x, ?_, rfl⟩
  · intro hlen l hdone
    obtain ⟨pre, d, t, post, s, -, hclean, -, hl⟩ :=
      (capture_loop_done_iff timeout reads raw x l).mp hdone
    rw [hl, capture_step_length, capture_clean_run_length timeout pre raw x s hclean, hlen]
  · intro hx n htimed
    obtain ⟨pre, d, t, post, s, -, hclean, hmiss, -, hn⟩ :=
      (capture_loop_timeout_iff timeout reads raw x n).mp htimed
    have hslt := capture_clean_run_index_lt timeout pre raw x s hclean hx
    have hstep := capture_step_snd d s.1 s.2
    by_cases hl : d &&& 0b11000000 = 0b10000000
    · rw [if_pos hl] at hstep
      omega
    · rw [if_neg hl] at hstep
      omega

/-- C5 witness: a one-step run from index 1224 completes a frame with
as many pixels as the buffer; a one-step run past the deadline reports
a partial count below 1225. -/
theorem frame_capture_streaming_witness :
    ((List.replicate RAW_DATA_LEN (0 : Nat)).length = RAW_DATA_LEN ∧
      (capture_step 0x80 (List.replicate RAW_DATA_LEN 0) 1224).1.length = RAW_DATA_LEN) ∧
    ((0 : Nat) < RAW_DATA_LEN ∧ (0 : Nat) < RAW_DATA_LEN) := by
  have hstep2 : (capture_step 0x80 (List.replicate RAW_DATA_LEN 0) 1224).2 = RAW_DATA_LEN := by
    rw [capture_step_snd, if_pos (by decide : (0x80 : Nat) &&& 0b11000000 = 0b10000000)]
    decide
  have hloop : capture_loop 10 [(0x80, 0)] (List.replicate RAW_DATA_LEN 0) 1224 =
      some (CaptureResult.done (capture_step 0x80 (List.replicate RAW_DATA_LEN 0) 1224).1) := by
    rw [capture_loop, if_pos hstep2]
  constructor
  · refine ⟨by simp, ?_⟩
    exact (frame_capture_streaming 10 [(0x80, 0)] (List.replicate RAW_DATA_LEN 0) 1224).2.1
      (by simp) _ hloop
  · refine ⟨by decide, ?_⟩
    have htimed : capture_loop 10 [(0x00, 11)] (List.replicate RAW_DATA_LEN 0) 0 =
        some (CaptureResult.timedOut (capture_step 0x00 (List.replicate RAW_DATA_LEN 0) 0).2) := by
      have hne : ¬ (capture_step 0x00 (List.replicate RAW_DATA_LEN 0) 0).2 = RAW_DATA_LEN := by
        rw [capture_step_snd, if_neg (by decide : ¬ (0x00 : Nat) &&& 0b11000000 = 0b10000000)]
        decide
      rw [capture_loop, if_neg hne, if_pos (by decide : (10 : Nat) < 11)]
    have h0 : (capture_step 0x00 (List.replicate RAW_DATA_LEN 0) 0).2 = 0 := by
      rw [capture_step_snd, if_neg (by decide : ¬ (0x00 : Nat) &&& 0b11000000 = 0b10000000)]
    have := (frame_capture_streaming 10 [(0x00, 11)] (List.replicate RAW_DATA_LEN 0) 0).2.2.2.2.1
      (by decide) (capture_step 0x00 (List.replicate RAW_DATA_LEN 0) 0).2 htimed
    rw [h0] at this
    exact this

/-- C6: a register write transmits exactly the two bytes
[addr ||| 0x80, value], a register read transmits exactly [addr, 0x00]
and keeps the second received byte, and against the simulated
store-and-echo transport a write followed by a read of the same address
returns the written value. -/
theorem register_wire_framing (store : SimStore) (addr value : Nat)
    (haddr : addr ≤ 0x7F) (_hvalue : value ≤ 0xFF) :
    write_txn addr value = [addr ||| 0x80, value] ∧
    read_txn addr = [addr, 0x00] ∧
    sim_read_byte store addr = store addr ∧
    sim_read_byte (sim_write store addr value) addr = value := by
  have haddr128 : addr < 128 := by omega
  have hread : ∀ st : SimStore, sim_read_byte st addr = st addr := by
    intro st
    rw [sim_read_byte, read_txn, sim_xfer]
    rw [if_neg (by simp [and_128_eq_zero addr haddr128])]
    rfl
  refine ⟨rfl, rfl, hread store, ?_⟩
  rw [hread]
  rw [sim_write, write_txn, sim_xfer]
  rw [if_pos (lor_128_and_128_ne addr)]
  simp only
  rw [if_pos (lor_128_and_127 addr haddr128).symm]

/-- C6 witness: round trip at address 0x12 with value 0xAB. -/
theorem register_wire_framing_witness :
    ((0x12 : Nat) ≤ 0x7F ∧ (0xAB : Nat) ≤ 0xFF) ∧
    sim_read_byte (sim_write (fun _ => 0) 0x12 0xAB) 0x12 = 0xAB :=
  ⟨⟨by decide, by decide⟩,
    (register_wire_framing (fun _ => 0) 0x12 0xAB (by decide) (by decide)).2.2.2⟩

/-- C7: the sequence player consumes its flat list two elements at a
time, in order: a pair starting with the WAIT sentinel becomes exactly
one sleep of the second element in milliseconds and zero writes, any
other pair becomes exactly one register write of that pair. -/
theorem bulk_write_pairs (pairs : List (Int × Int)) :
    bulk_write (pairs.foldr (fun p acc => p.1 :: p.2 :: acc) []) =
      some (pairs.map fun p =>
        if p.1 = WAIT then SpiAction.sleepMs p.2 else SpiAction.write p.1 p.2) ∧
    (∀ r v : Int,
      write_count [if r = WAIT then SpiAction.sleepMs v else SpiAction.write r v] =
        if r = WAIT then 0 else 1) ∧
    write_count (pairs.map fun p =>
        if p.1 = WAIT then SpiAction.sleepMs p.2 else SpiAction.write p.1 p.2) =
      (pairs.filter fun p => !(p.1 == WAIT)).length := by
  refine ⟨?_, ?_, ?_⟩
  · induction pairs with
    | nil => rfl
    | cons p rest ih =>
      obtain ⟨r, v⟩ := p
      simp only [List.foldr_cons, List.map_cons]
      rw [bulk_write, ih]
      rfl
  · intro r v
    by_cases h : r = WAIT
    · rw [if_pos h, if_pos h]
      rfl
    · rw [if_neg h, if_neg h]
      rfl
  · induction pairs with
    | nil => rfl
    | cons p rest ih =>
      obtain ⟨r, v⟩ := p
      rw [write_count] at ih ⊢
      simp only [List.map_cons, List.countP_cons, List.filter_cons]
      by_cases h : r = WAIT
      · simp [h, SpiAction.isWrite, ih]
      · simp [h, SpiAction.isWrite, ih]

/-- C8: the bring-up identity step reads the two bytes at addresses
0x00 and 0x01 as (product id, revision), and accepts exactly product id
0x49 with revision 0x00 or 0x01, raising the identity error otherwise;
in particular (0x49, 0x01) is accepted while (0x50, 0x01) and
(0x49, 0x02) are rejected. -/
theorem identity_check (store : SimStore) :
    get_id store = ReadResult.multi [store REG_ID, store (REG_ID + 1)] ∧
    (∀ product_id revision : Nat,
      id_check product_id revision = Except.ok (product_id, revision) ↔
        (product_id = 0x49 ∧ (revision = 0x00 ∨ revision = 0x01))) ∧
    id_check 0x49 0x01 = Except.ok (0x49, 0x01) ∧
    id_check 0x50 0x01 = Except.error "Invalid Product ID or Revision for PMW3901" ∧
    id_check 0x49 0x02 = Except.error "Invalid Product ID or Revision for PMW3901" := by
  refine ⟨rfl, ?_, rfl, rfl, rfl⟩
  intro pid rev
  rw [id_check]
  by_cases h : pid ≠ 0x49 ∨ (rev ≠ 0x00 ∧ rev ≠ 0x01)
  · rw [if_pos h]
    constructor
    · intro hc
      exact absurd hc (by simp)
    · intro hc
      exact absurd h (by tauto)
  · rw [if_neg h]
    push_neg at h
    constructor
    · intro _
      exact ⟨h.1, by tauto⟩
    · intro _
      rfl

/-- C9: both motion reads decode deltas as little-endian signed 16-bit
integers; each returns the deltas of the first sample passing its
validity test before the deadline, and raises the timeout error exactly
when the deadline is reached with no valid sample; the slow read
accepts a sample exactly when bit 7 of the data-ready byte is set. -/
theorem motion_read_protocol (timeout : Nat) :
    (∀ lo hi : Nat, lo < 256 → hi < 256 →
      int16_le lo hi % 65536 = lo + 256 * hi ∧
      -32768 ≤ int16_le lo hi ∧ int16_le lo hi < 32768) ∧
    (∀ d : BurstRaw,
      (unpack_burst d).x = int16_le d.b3 d.b4 ∧ (unpack_burst d).y = int16_le d.b5 d.b6) ∧
    (∀ d : SlowRaw, slow_deltas d = (int16_le d.b1 d.b2, int16_le d.b3 d.b4)) ∧
    (∀ d : SlowRaw, slow_valid d = true ↔ Nat.testBit d.b0 7) ∧
    (∀ (trace : List (Nat × BurstRaw)) (dx dy : Int),
      get_motion timeout trace = some (MotionResult.ok dx dy) ↔
        ∃ pre t d post,
          trace = pre ++ (t, d) :: post ∧
          (∀ q ∈ pre, q.1 < timeout ∧ burst_valid (unpack_burst q.2) = false) ∧
          t < timeout ∧ burst_valid (unpack_burst d) = true ∧
          ((unpack_burst d).x, (unpack_burst d).y) = (dx, dy)) ∧
    (∀ trace : List (Nat × BurstRaw),
      get_motion timeout trace = some MotionResult.timedOut ↔
        ∃ pre t d post,
          trace = pre ++ (t, d) :: post ∧
          (∀ q ∈ pre, q.1 < timeout ∧ burst_valid (unpack_burst q.2) = false) ∧
          timeout ≤ t) ∧
    (∀ (trace : List (Nat × SlowRaw)) (dx dy : Int),
      get_motion_slow timeout trace = some (MotionResult.ok dx dy) ↔
        ∃ pre t d post,
          trace = pre ++ (t, d) :: post ∧
          (∀ q ∈ pre, q.1 < timeout ∧ slow_valid q.2 = false) ∧
          t < timeout ∧ slow_valid d = true ∧ slow_deltas d = (dx, dy)) ∧
    (∀ trace : List (Nat × SlowRaw),
      get_motion_slow timeout trace = some MotionResult.timedOut ↔
        ∃ pre t d post,
          trace = pre ++ (t, d) :: post ∧
          (∀ q ∈ pre, q.1 < timeout ∧ slow_valid q.2 = false) ∧
          timeout ≤ t) := by
  refine ⟨?_, fun d => ⟨rfl, rfl⟩, fun d => rfl, ?_, ?_, ?_, ?_, ?_⟩
  · intro lo hi hlo hhi
    rw [int16_le]
    split_ifs with h <;> refine ⟨?_, ?_, ?_⟩ <;> omega
  · intro d
    rw [slow_valid, and_128_bne]
  · intro trace dx dy
    exact motion_loop_ok_iff _ _ timeout trace dx dy
  · intro trace
    exact motion_loop_timeout_iff _ _ timeout trace
  · intro trace dx dy
    exact motion_loop_ok_iff _ _ timeout trace dx dy
  · intro trace
    exact motion_loop_timeout_iff _ _ timeout trace

/-- C9 witness: the bytes 0xFF 0xFF decode to the signed value -1. -/
theorem motion_read_protocol_witness :
    ((0xFF : Nat) < 256 ∧ (0xFF : Nat) < 256) ∧
    (int16_le 0xFF 0xFF % 65536 = 0xFF + 256 * 0xFF ∧
      -32768 ≤ int16_le 0xFF 0xFF ∧ int16_le 0xFF 0xFF < 32768) :=
  ⟨⟨by decide, by decide⟩, (motion_read_protocol 5).1 0xFF 0xFF (by decide) (by decide)⟩

/-- C10: a multi-register read of count at least 2 returns the list of
exactly count bytes, one per single-byte transaction at consecutive
addresses, while a read of count 1 returns the bare byte value rather
than a one-element list. -/
theorem read_result_shape (store : SimStore) (register count : Nat) (hcount : 2 ≤ count) :
    _read store register count =
      ReadResult.multi ((List.range count).map fun x => sim_read_byte store (register + x)) ∧
    ((List.range count).map fun x => sim_read_byte store (register + x)).length = count ∧
    read_txns register count = ((List.range count).map fun x => [register + x, 0x00]) ∧
    _read store register 1 = ReadResult.single (sim_read_byte store register) := by
  refine ⟨?_, by simp, rfl, ?_⟩
  · simp only [_read]
    rw [if_neg (by omega)]
  · simp [_read, List.range_succ]

/-- C10 witness: a two-byte read against a constant store. -/
theorem read_result_shape_witness :
    (2 ≤ 2) ∧ _read (fun _ => 5) 0x02 2 = ReadResult.multi [5, 5] := by
  refine ⟨by decide, ?_⟩
  have h := (read_result_shape (fun _ => 5) 0x02 2 (by decide)).1
  simpa using h
